import Mathlib

/-!
Verification development for the heat_pump_thermo repository.

The repository has two independent numeric models:
  - a Carnot-cycle coefficient-of-performance model (src/carnot_cop.py),
  - a synthetic scatter-data generator around a fitted trend line
    (src/cop_data.py).

Embedding conventions. Real-number quantities are modelled over the
rationals. The invalid marker produced with np.where on the NaN branch is
modelled as the value none of an Option type: the function is total and
never raises, and none marks exactly the NaN positions. Numpy arrays are
modelled as lists, evaluated elementwise with List.map / List.zipWith.
The numpy library calls that the generator makes (np.polyfit, the
seeded global pseudorandom generator) are external collaborators: they are
abstracted as explicit parameters (a coefficient oracle and an abstract
generator state machine), while every line of repository code is carried
over structurally.
-/

/-- Converts temperature from Celsius to Kelvin (src/carnot_cop.py,
celsius_to_kelvin): k = c + 273.15. -/
def celsius_to_kelvin (temp_celsius : ℚ) : ℚ :=
  temp_celsius + 273.15

/-- Elementwise celsius_to_kelvin over a sequence, as numpy broadcasting
applies it to an array of temperatures. -/
def celsius_to_kelvin_vec (temps : List ℚ) : List ℚ :=
  temps.map celsius_to_kelvin

/-- Scalar Carnot heating COP (src/carnot_cop.py, carnot_cop_heating):
delta_T = T_hot_K - T_cold_K; cop = T_hot_K / delta_T; the result is
replaced by the invalid marker where delta_T <= 0 (np.where branch,
modelled by none). -/
def carnot_cop_heating (T_hot_K T_cold_K : ℚ) : Option ℚ :=
  let delta_T := T_hot_K - T_cold_K
  let cop := T_hot_K / delta_T
  if delta_T ≤ 0 then none else some cop

/-- Elementwise carnot_cop_heating with a scalar hot reservoir against a
sequence of cold-reservoir temperatures, as the script evaluates it over
the ambient sweep. -/
def carnot_cop_heating_vec (T_hot_K : ℚ) (T_cold_K : List ℚ) : List (Option ℚ) :=
  T_cold_K.map (carnot_cop_heating T_hot_K)

/-- Minimum of a list, as ndarray.min over a nonempty numpy array
(the empty case is unreachable in the scripts and given a default). -/
def listMin : List ℚ → ℚ
  | [] => 0
  | x :: xs => xs.foldl min x

/-- Maximum of a list, as ndarray.max over a nonempty numpy array. -/
def listMax : List ℚ → ℚ
  | [] => 0
  | x :: xs => xs.foldl max x

/-- Polynomial evaluation with coefficients listed highest degree first,
as np.poly1d applies np.polyfit output (Horner scheme). -/
def polyval (coeffs : List ℚ) (x : ℚ) : ℚ :=
  coeffs.foldl (fun acc c => acc * x + c) 0

/-- Per-point scale of the Gaussian scatter noise
(src/cop_data.py line 35): variance_factor = 0.2 + 0.1 * ((t + 20) / 30),
passed to np.random.normal as the standard deviation of the noise. -/
def variance_factor (t : ℚ) : ℚ :=
  0.2 + 0.1 * ((t + 20) / 30)

/-- Abstract model of the numpy global pseudorandom generator: a state
type with seeding, a raw uniform draw on the unit interval (the basis of
np.random.uniform), and a standard normal draw (the basis of
np.random.normal). The concrete algorithm (MT19937) is an external
library collaborator and stays abstract. -/
structure RngModel (S : Type) where
  seed : ℕ → S
  nextUnit : S → ℚ × S
  nextGauss : S → ℚ × S

/-- Soundness of an abstract generator: every raw uniform draw lies in
the half-open unit interval, as numpy random_sample guarantees. -/
def UnitInterval {S : Type} (M : RngModel S) : Prop :=
  ∀ s : S, 0 ≤ (M.nextUnit s).1 ∧ (M.nextUnit s).1 < 1

/-- Draws n consecutive values from the generator, threading the state,
as a size-n numpy sampling call consumes the global state. -/
def drawList {S : Type} (step : S → ℚ × S) : ℕ → S → List ℚ × S
  | 0, s => ([], s)
  | n + 1, s =>
    let x := (step s).1
    let s1 := (step s).2
    let rest := drawList step n s1
    (x :: rest.1, rest.2)

/-- One np.random.uniform(lo, hi) draw from a raw unit draw u:
lo + u * (hi - lo). -/
def uniformDraw (lo hi u : ℚ) : ℚ :=
  lo + u * (hi - lo)

/-- The synthetic scatter generator (src/cop_data.py,
generate_synthetic_scatter_data), carried over line by line:
fit a degree-3 polynomial to the trend data (np.polyfit abstracted as the
coefficient oracle polyfit3), reseed the global generator with the fixed
seed 42 regardless of its prior state s0, draw num_points temperatures
uniformly between min(trend_x) and max(trend_x), evaluate the fitted
polynomial on them, add Gaussian noise with per-point standard deviation
variance_factor, floor the result at 0.5, and return the temperatures,
the floored noisy COP values, and the polynomial re-evaluated on the
temperatures. -/
def generate_synthetic_scatter_data {S : Type} (M : RngModel S)
    (polyfit3 : List ℚ → List ℚ → List ℚ) (s0 : S)
    (trend_x trend_y : List ℚ) (num_points : ℕ) :
    List ℚ × List ℚ × List ℚ :=
  let p := polyval (polyfit3 trend_x trend_y)
  let s1 := M.seed 42
  let us := (drawList M.nextUnit num_points s1).1
  let s2 := (drawList M.nextUnit num_points s1).2
  let synthetic_temp := us.map (uniformDraw (listMin trend_x) (listMax trend_x))
  let expected_cop := synthetic_temp.map p
  let sigmas := synthetic_temp.map variance_factor
  let gs := (drawList M.nextGauss num_points s2).1
  let noise := List.zipWith (fun sg z => sg * z) sigmas gs
  let synthetic_cop :=
    (List.zipWith (fun e z => e + z) expected_cop noise).map (fun c => max c 0.5)
  (synthetic_temp, synthetic_cop, synthetic_temp.map p)

/-- Claim C4: the program reproduces the concrete Carnot cases of the
spec: T_hot 65 C and T_cold -35 C give 338.15 / (338.15 - 238.15) =
3.3815, and T_hot 35 C with T_cold 0 C gives 308.15 / 35. -/
theorem carnot_concrete_cases :
    carnot_cop_heating (celsius_to_kelvin 65) (celsius_to_kelvin (-35))
      = some (338.15 / (338.15 - 238.15))
    ∧ ((338.15 : ℚ) / (338.15 - 238.15)) = 3.3815
    ∧ carnot_cop_heating (celsius_to_kelvin 35) (celsius_to_kelvin 0)
      = some (308.15 / 35) := by
  refine ⟨?_, by norm_num, ?_⟩ <;>
    · simp only [carnot_cop_heating, celsius_to_kelvin]
      norm_num

/-- Claim C5: celsius_to_kelvin is the total map c + 273.15, applied
elementwise over sequences, with celsius_to_kelvin 0 = 273.15 and
celsius_to_kelvin (-273.15) = 0. -/
theorem celsius_to_kelvin_spec :
    (∀ c : ℚ, celsius_to_kelvin c = c + 273.15)
    ∧ (∀ l : List ℚ, celsius_to_kelvin_vec l = l.map (fun c => c + 273.15)
        ∧ (celsius_to_kelvin_vec l).length = l.length)
    ∧ celsius_to_kelvin 0 = 273.15
    ∧ celsius_to_kelvin (-273.15) = 0 := by
  refine ⟨fun c => rfl, fun l => ⟨rfl, by simp [celsius_to_kelvin_vec]⟩, ?_, ?_⟩ <;>
    norm_num [celsius_to_kelvin]

/-- Claim C1: for a positive hot-reservoir temperature against a sequence
of positive cold-reservoir temperatures, carnot_cop_heating evaluated
elementwise keeps the length, is the invalid marker exactly where
T_hot_K - T_cold_K[i] <= 0 (boundary included), and elsewhere equals
T_hot_K / (T_hot_K - T_cold_K[i]), a positive value; the function is
total, so it never raises. -/
theorem carnot_cop_heating_elementwise (T_hot_K : ℚ) (T_cold_K : List ℚ)
    (hhot : 0 < T_hot_K) (hcold : ∀ t ∈ T_cold_K, 0 < t) :
    (carnot_cop_heating_vec T_hot_K T_cold_K).length = T_cold_K.length
    ∧ ∀ i : ℕ, i < T_cold_K.length →
        (((carnot_cop_heating_vec T_hot_K T_cold_K).getD i none = none
            ↔ T_hot_K - T_cold_K.getD i 0 ≤ 0)
          ∧ (0 < T_hot_K - T_cold_K.getD i 0 →
              (carnot_cop_heating_vec T_hot_K T_cold_K).getD i none
                = some (T_hot_K / (T_hot_K - T_cold_K.getD i 0))
              ∧ 0 < T_hot_K / (T_hot_K - T_cold_K.getD i 0))) := by
  constructor
  · simp [carnot_cop_heating_vec]
  · intro i hi
    have hlen : i < (carnot_cop_heating_vec T_hot_K T_cold_K).length := by
      simpa [carnot_cop_heating_vec] using hi
    have hv : (carnot_cop_heating_vec T_hot_K T_cold_K).getD i none
        = carnot_cop_heating T_hot_K (T_cold_K.getD i 0) := by
      rw [List.getD_eq_getElem _ _ hlen, List.getD_eq_getElem _ _ hi]
      simp [carnot_cop_heating_vec]
    rw [hv]
    unfold carnot_cop_heating
    by_cases h : T_hot_K - T_cold_K.getD i 0 ≤ 0
    · rw [if_pos h]
      exact ⟨iff_of_true rfl h, fun hpos => absurd hpos (not_lt.mpr h)⟩
    · rw [if_neg h]
      exact ⟨iff_of_false (by simp) h, fun hpos => ⟨rfl, div_pos hhot hpos⟩⟩

/-- Witness for claim C1 at T_hot_K = 308.15 and T_cold_K = [273.15,
308.15]: index 0 is a valid positive COP, index 1 sits on the boundary
delta = 0 and is the invalid marker. -/
theorem carnot_cop_heating_elementwise_witness :
    (carnot_cop_heating_vec 308.15 [273.15, 308.15]).getD 0 none
      = some (308.15 / (308.15 - 273.15))
    ∧ 0 < (308.15 : ℚ) / (308.15 - 273.15)
    ∧ (carnot_cop_heating_vec 308.15 [273.15, 308.15]).getD 1 none = none := by
  have h := carnot_cop_heating_elementwise 308.15 [273.15, 308.15]
    (by norm_num) (by intro t ht; simp only [List.mem_cons, List.not_mem_nil, or_false] at ht
                      rcases ht with rfl | rfl <;> norm_num)
  have h0 := (h.2 0 (by norm_num)).2 (by norm_num)
  have h1 := ((h.2 1 (by norm_num)).1).mpr (by norm_num)
  exact ⟨by simpa using h0.1, by simpa using h0.2, by simpa using h1⟩

/-- Counterexample to claim C3 as stated: with T_hot_K = 308.15 and
T_cold1 = 238.15 < T_cold2 = 273.15 < T_hot_K, the COP at the colder
T_cold1 is 308.15 / 70 and at the warmer T_cold2 is 308.15 / 35, and
308.15 / 70 is NOT greater than 308.15 / 35: the COP rises, not falls,
as T_cold_K increases toward T_hot_K. -/
theorem carnot_cop_not_decreasing :
    (238.15 : ℚ) < 273.15 ∧ (273.15 : ℚ) < 308.15
    ∧ carnot_cop_heating 308.15 238.15 = some (308.15 / 70)
    ∧ carnot_cop_heating 308.15 273.15 = some (308.15 / 35)
    ∧ ¬ ((308.15 : ℚ) / 70 > 308.15 / 35) := by
  refine ⟨by norm_num, by norm_num, ?_, ?_, by norm_num⟩ <;>
    · simp only [carnot_cop_heating]
      norm_num

/-- Claim C3 amended: for 0 < T_cold < T_hot the Carnot heating COP
exceeds 1, and it is strictly INCREASING in T_cold_K as T_cold_K rises
toward T_hot_K (equivalently, strictly decreasing in the temperature
difference T_hot - T_cold). -/
theorem carnot_cop_gt_one_and_increasing (T_hot T_cold T_cold1 T_cold2 : ℚ)
    (hhot : 0 < T_hot) (hc0 : 0 < T_cold) (hch : T_cold < T_hot)
    (h10 : 0 < T_cold1) (h12 : T_cold1 < T_cold2) (h2h : T_cold2 < T_hot) :
    (∃ cop, carnot_cop_heating T_hot T_cold = some cop ∧ 1 < cop)
    ∧ (∃ cop1 cop2, carnot_cop_heating T_hot T_cold1 = some cop1
        ∧ carnot_cop_heating T_hot T_cold2 = some cop2 ∧ cop1 < cop2) := by
  have hd : 0 < T_hot - T_cold := by linarith
  have hd1 : 0 < T_hot - T_cold1 := by linarith
  have hd2 : 0 < T_hot - T_cold2 := by linarith
  constructor
  · refine ⟨T_hot / (T_hot - T_cold), ?_, ?_⟩
    · simp only [carnot_cop_heating, if_neg (not_le.mpr hd)]
    · exact (one_lt_div hd).mpr (by linarith)
  · refine ⟨T_hot / (T_hot - T_cold1), T_hot / (T_hot - T_cold2), ?_, ?_, ?_⟩
    · simp only [carnot_cop_heating, if_neg (not_le.mpr hd1)]
    · simp only [carnot_cop_heating, if_neg (not_le.mpr hd2)]
    · rw [div_lt_div_iff₀ hd1 hd2]
      nlinarith

/-- Witness for the amended claim C3 at T_hot = 308.15, T_cold = 273.15,
T_cold1 = 238.15, T_cold2 = 273.15. -/
theorem carnot_cop_gt_one_and_increasing_witness :
    (∃ cop, carnot_cop_heating 308.15 273.15 = some cop ∧ 1 < cop)
    ∧ (∃ cop1 cop2, carnot_cop_heating 308.15 238.15 = some cop1
        ∧ carnot_cop_heating 308.15 273.15 = some cop2 ∧ cop1 < cop2) :=
  carnot_cop_gt_one_and_increasing 308.15 273.15 238.15 273.15
    (by norm_num) (by norm_num) (by norm_num) (by norm_num) (by norm_num) (by norm_num)

/-- Length of a block of generator draws is the requested count. -/
theorem drawList_length {S : Type} (step : S → ℚ × S) :
    ∀ (n : ℕ) (s : S), ((drawList step n s).1).length = n := by
  intro n
  induction n with
  | zero => intro s; rfl
  | succ m ih => intro s; simp [drawList, ih]

/-- Every raw uniform draw of a sound generator lies in the unit
interval. -/
theorem drawList_mem_unit {S : Type} (M : RngModel S) (hM : UnitInterval M) :
    ∀ (n : ℕ) (s : S) (u : ℚ), u ∈ (drawList M.nextUnit n s).1 → 0 ≤ u ∧ u < 1 := by
  intro n
  induction n with
  | zero => intro s u hu; simp [drawList] at hu
  | succ m ih =>
    intro s u hu
    simp only [drawList, List.mem_cons] at hu
    rcases hu with rfl | hu
    · exact hM s
    · exact ih _ u hu

/-- Folding min over a list never rises above the initial accumulator. -/
theorem foldl_min_le_init (xs : List ℚ) : ∀ a : ℚ, xs.foldl min a ≤ a := by
  induction xs with
  | nil => intro a; exact le_refl a
  | cons y ys ih =>
    intro a
    calc ys.foldl min (min a y) ≤ min a y := ih (min a y)
    _ ≤ a := min_le_left a y

/-- Folding max over a list never falls below the initial accumulator. -/
theorem init_le_foldl_max (xs : List ℚ) : ∀ a : ℚ, a ≤ xs.foldl max a := by
  induction xs with
  | nil => intro a; exact le_refl a
  | cons y ys ih =>
    intro a
    calc a ≤ max a y := le_max_left a y
    _ ≤ ys.foldl max (max a y) := ih (max a y)

/-- On a nonempty list the minimum is at most the maximum. -/
theorem listMin_le_listMax (l : List ℚ) (h : l ≠ []) : listMin l ≤ listMax l := by
  cases l with
  | nil => exact absurd rfl h
  | cons x xs =>
    calc listMin (x :: xs) ≤ x := foldl_min_le_init xs x
    _ ≤ listMax (x :: xs) := init_le_foldl_max xs x

/-- An in-range index read through a map evaluates the mapped function at
the underlying element, whatever the defaults. -/
theorem getD_map_of_lt {α β : Type} (f : α → β) (l : List α) (d1 : β) (d2 : α) :
    ∀ i : ℕ, i < l.length → (l.map f).getD i d1 = f (l.getD i d2) := by
  induction l with
  | nil => intro i hi; simp at hi
  | cons x xs ih =>
    intro i hi
    cases i with
    | zero => simp
    | succ j =>
      simp only [List.map_cons, List.getD_cons_succ]
      exact ih j (by simpa using hi)

/-- Indexed form of the noisy-COP pipeline of the generator: mapping the
0.5 floor over the sum of the expected series and the scaled noise series
reads back, at any in-range index, as the floored pointwise formula. -/
theorem map_zip_getD (p q : ℚ → ℚ) :
    ∀ (temps gs : List ℚ) (i : ℕ), i < temps.length → i < gs.length →
      ((List.zipWith (fun e z => e + z) (temps.map p)
          (List.zipWith (fun sg z => sg * z) (temps.map q) gs)).map
            (fun c => max c 0.5)).getD i 0
        = max (p (temps.getD i 0) + q (temps.getD i 0) * gs.getD i 0) 0.5 := by
  intro temps
  induction temps with
  | nil => intro gs i hi _; simp at hi
  | cons t ts ih =>
    intro gs i hi hg
    cases gs with
    | nil => simp at hg
    | cons g gsTail =>
      cases i with
      | zero => simp
      | succ j =>
        simp only [List.map_cons, List.zipWith_cons_cons, List.getD_cons_succ]
        exact ih gsTail j (by simpa using hi) (by simpa using hg)

/-- Degenerate concrete generator used to instantiate universally
quantified theorems: the state is trivial and every draw returns 0. -/
def rngZero : RngModel Unit :=
  ⟨fun _ => (), fun _ => (0, ()), fun _ => (0, ())⟩

/-- Claim C2: every COP value produced by the generator is at least 0.5,
for any generator behavior (hence any seed), any trend data and any
num_points, because the hard floor is applied after the noise. -/
theorem synthetic_cop_floor {S : Type} (M : RngModel S)
    (polyfit3 : List ℚ → List ℚ → List ℚ) (s0 : S)
    (trend_x trend_y : List ℚ) (num_points : ℕ)
    (hn : 1 ≤ num_points) (c : ℚ)
    (hc : c ∈ (generate_synthetic_scatter_data M polyfit3 s0 trend_x trend_y num_points).2.1) :
    0.5 ≤ c := by
  simp only [generate_synthetic_scatter_data] at hc
  rw [List.mem_map] at hc
  obtain ⟨a, -, rfl⟩ := hc
  exact le_max_right a 0.5

/-- Witness for claim C2: the single COP value generated by the
degenerate generator from a one-point trend is 0.5 itself, and the
theorem applies to it. -/
theorem synthetic_cop_floor_witness :
    ((1 : ℕ) ≤ 1
      ∧ (0.5 : ℚ) ∈ (generate_synthetic_scatter_data rngZero (fun _ _ => []) () [0] [0] 1).2.1)
    ∧ (0.5 : ℚ) ≤ 0.5 :=
  ⟨⟨le_refl 1, by norm_num [generate_synthetic_scatter_data, drawList, rngZero, uniformDraw,
      polyval, variance_factor, listMin, listMax]⟩,
   synthetic_cop_floor rngZero (fun _ _ => []) () [0] [0] 1 (le_refl 1) 0.5
     (by norm_num [generate_synthetic_scatter_data, drawList, rngZero, uniformDraw,
        polyval, variance_factor, listMin, listMax])⟩

/-- Claim C9: the generator reseeds the pseudorandom state with the fixed
seed 42 on every call, so its output never depends on the prior state of
the generator, and the temperatures are exactly the uniform draws taken
from the state seeded with 42. -/
theorem generate_ignores_prior_state {S : Type} (M : RngModel S)
    (polyfit3 : List ℚ → List ℚ → List ℚ) (s1 s2 : S)
    (trend_x trend_y : List ℚ) (num_points : ℕ) :
    generate_synthetic_scatter_data M polyfit3 s1 trend_x trend_y num_points
      = generate_synthetic_scatter_data M polyfit3 s2 trend_x trend_y num_points
    ∧ (generate_synthetic_scatter_data M polyfit3 s1 trend_x trend_y num_points).1
      = ((drawList M.nextUnit num_points (M.seed 42)).1).map
          (uniformDraw (listMin trend_x) (listMax trend_x)) :=
  ⟨rfl, rfl⟩

/-- Claim C10: the third sequence returned by the generator is, index for
index, the fitted polynomial evaluated at the first (temperature)
sequence, with no noise and no floor applied. -/
theorem synthetic_expected_is_fit {S : Type} (M : RngModel S)
    (polyfit3 : List ℚ → List ℚ → List ℚ) (s0 : S)
    (trend_x trend_y : List ℚ) (num_points i : ℕ) (hi : i < num_points) :
    ((generate_synthetic_scatter_data M polyfit3 s0 trend_x trend_y num_points).2.2).length
        = num_points
    ∧ (generate_synthetic_scatter_data M polyfit3 s0 trend_x trend_y num_points).2.2
        = ((generate_synthetic_scatter_data M polyfit3 s0 trend_x trend_y num_points).1).map
            (polyval (polyfit3 trend_x trend_y))
    ∧ ((generate_synthetic_scatter_data M polyfit3 s0 trend_x trend_y num_points).2.2).getD i 0
        = polyval (polyfit3 trend_x trend_y)
            (((generate_synthetic_scatter_data M polyfit3 s0 trend_x trend_y num_points).1).getD i 0) := by
  have h1 : ((generate_synthetic_scatter_data M polyfit3 s0 trend_x trend_y num_points).1).length
      = num_points := by
    simp [generate_synthetic_scatter_data, drawList_length]
  refine ⟨?_, rfl, ?_⟩
  · simp [generate_synthetic_scatter_data, drawList_length]
  · exact getD_map_of_lt (polyval (polyfit3 trend_x trend_y))
      ((generate_synthetic_scatter_data M polyfit3 s0 trend_x trend_y num_points).1) 0 0 i
      (by rw [h1]; exact hi)

/-- Witness for claim C10 with the degenerate generator, a one-point
trend and index 0. -/
theorem synthetic_expected_is_fit_witness :
    ((generate_synthetic_scatter_data rngZero (fun _ _ => []) () [0] [0] 1).2.2).getD 0 0
      = polyval ((fun _ _ => ([] : List ℚ)) [0] [0])
          (((generate_synthetic_scatter_data rngZero (fun _ _ => []) () [0] [0] 1).1).getD 0 0) :=
  (synthetic_expected_is_fit rngZero (fun _ _ => []) () [0] [0] 1 0 (by norm_num)).2.2

/-- Claim C6: the per-point noise standard deviation used by the
generator is variance_factor t = 0.2 + 0.1 * ((t + 20) / 30); it is
monotonically non-decreasing on [-20, 10] with minimum 0.2 at t = -20,
and the generated COP at every in-range index is the floored sum of the
fitted value and the variance_factor-scaled Gaussian draw. -/
theorem variance_factor_noise_spec :
    (∀ t : ℚ, variance_factor t = 0.2 + 0.1 * ((t + 20) / 30))
    ∧ (∀ t1 t2 : ℚ, -20 ≤ t1 → t1 ≤ t2 → t2 ≤ 10 →
        variance_factor t1 ≤ variance_factor t2)
    ∧ variance_factor (-20) = 0.2
    ∧ (∀ t : ℚ, -20 ≤ t → t ≤ 10 → variance_factor (-20) ≤ variance_factor t)
    ∧ (∀ (S : Type) (M : RngModel S) (polyfit3 : List ℚ → List ℚ → List ℚ)
        (s0 : S) (trend_x trend_y : List ℚ) (num_points i : ℕ),
        i < num_points →
        ((generate_synthetic_scatter_data M polyfit3 s0 trend_x trend_y num_points).2.1).getD i 0
          = max (polyval (polyfit3 trend_x trend_y)
                  (((generate_synthetic_scatter_data M polyfit3 s0 trend_x trend_y
                      num_points).1).getD i 0)
                + variance_factor
                    (((generate_synthetic_scatter_data M polyfit3 s0 trend_x trend_y
                        num_points).1).getD i 0)
                  * ((drawList M.nextGauss num_points
                      ((drawList M.nextUnit num_points (M.seed 42)).2)).1).getD i 0)
              0.5) := by
  refine ⟨fun t => rfl, ?_, by norm_num [variance_factor], ?_, ?_⟩
  · intro t1 t2 h1 h12 h2
    unfold variance_factor
    linarith
  · intro t h1 h2
    unfold variance_factor
    linarith
  · intro S M polyfit3 s0 trend_x trend_y num_points i hi
    have h1 : (((drawList M.nextUnit num_points (M.seed 42)).1).map
        (uniformDraw (listMin trend_x) (listMax trend_x))).length = num_points := by
      simp [drawList_length]
    have h2 : ((drawList M.nextGauss num_points
        ((drawList M.nextUnit num_points (M.seed 42)).2)).1).length = num_points :=
      drawList_length _ _ _
    exact map_zip_getD (polyval (polyfit3 trend_x trend_y)) variance_factor
      (((drawList M.nextUnit num_points (M.seed 42)).1).map
        (uniformDraw (listMin trend_x) (listMax trend_x)))
      ((drawList M.nextGauss num_points
        ((drawList M.nextUnit num_points (M.seed 42)).2)).1)
      i (by rw [h1]; exact hi) (by rw [h2]; exact hi)

/-- Witness for claim C6: monotonicity applied at the endpoints of the
supported range, and the pointwise noise formula applied at index 0 of a
concrete one-point run of the generator. -/
theorem variance_factor_noise_spec_witness :
    variance_factor (-20) ≤ variance_factor 10
    ∧ ((generate_synthetic_scatter_data rngZero (fun _ _ => []) () [0] [0] 1).2.1).getD 0 0
      = max (polyval ((fun _ _ => ([] : List ℚ)) [0] [0])
              (((generate_synthetic_scatter_data rngZero (fun _ _ => []) () [0] [0] 1).1).getD 0 0)
            + variance_factor
                (((generate_synthetic_scatter_data rngZero (fun _ _ => []) () [0] [0] 1).1).getD 0 0)
              * ((drawList rngZero.nextGauss 1
                  ((drawList rngZero.nextUnit 1 (rngZero.seed 42)).2)).1).getD 0 0)
          0.5 :=
  ⟨variance_factor_noise_spec.2.1 (-20) 10 (by norm_num) (by norm_num) (by norm_num),
   variance_factor_noise_spec.2.2.2.2 Unit rngZero (fun _ _ => []) () [0] [0] 1 0 (by norm_num)⟩

/-- Claim C8: for a sound generator and a nonempty trend, the generator
returns temperature and COP sequences of length exactly num_points, and
every temperature lies in the closed interval from min(trend_x) to
max(trend_x). -/
theorem synthetic_data_shape {S : Type} (M : RngModel S) (hM : UnitInterval M)
    (polyfit3 : List ℚ → List ℚ → List ℚ) (s0 : S)
    (trend_x trend_y : List ℚ) (num_points : ℕ)
    (hn : 1 ≤ num_points) (hx : trend_x ≠ []) :
    ((generate_synthetic_scatter_data M polyfit3 s0 trend_x trend_y num_points).1).length
        = num_points
    ∧ ((generate_synthetic_scatter_data M polyfit3 s0 trend_x trend_y num_points).2.1).length
        = num_points
    ∧ ∀ t ∈ (generate_synthetic_scatter_data M polyfit3 s0 trend_x trend_y num_points).1,
        listMin trend_x ≤ t ∧ t ≤ listMax trend_x := by
  refine ⟨?_, ?_, ?_⟩
  · simp [generate_synthetic_scatter_data, drawList_length]
  · simp [generate_synthetic_scatter_data, drawList_length, List.length_zipWith]
  · intro t ht
    simp only [generate_synthetic_scatter_data] at ht
    rw [List.mem_map] at ht
    obtain ⟨u, hu, rfl⟩ := ht
    obtain ⟨hu0, hu1⟩ := drawList_mem_unit M hM num_points (M.seed 42) u hu
    have hlm := listMin_le_listMax trend_x hx
    unfold uniformDraw
    constructor
    · nlinarith [mul_nonneg hu0
        (by linarith : (0 : ℚ) ≤ listMax trend_x - listMin trend_x)]
    · nlinarith [mul_nonneg (by linarith : (0 : ℚ) ≤ 1 - u)
        (by linarith : (0 : ℚ) ≤ listMax trend_x - listMin trend_x)]

/-- Witness for claim C8 with the degenerate generator and a two-point
trend. -/
theorem synthetic_data_shape_witness :
    ((generate_synthetic_scatter_data rngZero (fun _ _ => []) () [0, 1] [0, 0] 1).1).length = 1
    ∧ ((generate_synthetic_scatter_data rngZero (fun _ _ => []) () [0, 1] [0, 0] 1).2.1).length = 1
    ∧ ∀ t ∈ (generate_synthetic_scatter_data rngZero (fun _ _ => []) () [0, 1] [0, 0] 1).1,
        listMin [0, 1] ≤ t ∧ t ≤ listMax [0, 1] :=
  synthetic_data_shape rngZero
    (by intro s; refine ⟨le_refl 0, ?_⟩; show (0 : ℚ) < 1; norm_num)
    (fun _ _ => []) () [0, 1] [0, 0] 1 (le_refl 1) (List.cons_ne_nil 0 [1])
